import Mathlib

/-!
Shallow embedding of the Solana AMM program
(`src/solana_dex_onchain_swap/programs/solana_dex/src/lib.rs`).

Machine integers are modelled as `Nat` with explicit range guards:
every `checked_*` Rust operation becomes an `Except`-valued helper that
fails exactly when the Rust `Option` would be `None` (an `.unwrap()` on
`None` is a runtime panic, modelled by the `RtError.panicOverflow` /
`RtError.panicDivByZero` constructors, kept distinct from the typed
`DexError` results that the program returns via `require!` / `error!`).
`Pubkey` values are modelled as `Nat` with the usual linear order, which
is order-isomorphic to the lexicographic byte order the Rust `<` uses.
-/

namespace SolanaDex

def u64Max : Nat := 2 ^ 64 - 1

def u128Max : Nat := 2 ^ 128 - 1

/-- Pubkey, modelled as a natural number (only equality and the linear
order on keys are used by the embedded code). -/
abbrev Key := Nat

/-- The typed error codes of the program (`#[error_code] pub enum DexError`). -/
inductive DexError where
  | IdenticalTokens
  | PairExists
  | NotFactoryOwner
  | PairAlreadyInitialized
  | PairNotInitialized
  | InvalidPairFactory
  | InvalidTokenAccount
  | InvalidLpMint
  | InvalidTokenOwner
  | InsufficientAmount
  | InsufficientLiquidityMinted
  | AmountOverflow
  | InsufficientOutputAmount
  | InsufficientLiquidity
  | K
  deriving DecidableEq, Repr

/-- A runtime outcome of an instruction body: either a typed `DexError`
(returned through `require!` / `error!`) or a panic from `.unwrap()` on a
failed checked arithmetic operation. -/
inductive RtError where
  | dex : DexError → RtError
  | panicOverflow
  | panicDivByZero
  deriving DecidableEq, Repr

/-- `a.checked_mul(b)` on `u128`, followed by `.unwrap()`. -/
def checkedMul128 (a b : Nat) : Except RtError Nat :=
  if a * b ≤ u128Max then .ok (a * b) else .error .panicOverflow

/-- `a.checked_add(b)` on `u128`, followed by `.unwrap()`. -/
def checkedAdd128 (a b : Nat) : Except RtError Nat :=
  if a + b ≤ u128Max then .ok (a + b) else .error .panicOverflow

/-- `a.checked_div(b)` on `u128`, followed by `.unwrap()`; the Rust
`checked_div` is `None` exactly when the divisor is zero. -/
def checkedDiv128 (a b : Nat) : Except RtError Nat :=
  if b = 0 then .error .panicDivByZero else .ok (a / b)

/-- `a.checked_add(b)` on `u64`, followed by `.unwrap()`. -/
def checkedAdd64 (a b : Nat) : Except RtError Nat :=
  if a + b ≤ u64Max then .ok (a + b) else .error .panicOverflow

/-- `a.checked_sub(b)` on `u64`, followed by `.unwrap()`. -/
def checkedSub64 (a b : Nat) : Except RtError Nat :=
  if b ≤ a then .ok (a - b) else .error .panicOverflow

/-- `u64::try_from(a).map_err(|_| error!(DexError::AmountOverflow))?` —
a typed error, not a panic. -/
def u64TryFrom (a : Nat) : Except RtError Nat :=
  if a ≤ u64Max then .ok a else .error (.dex .AmountOverflow)

/-- The Newton iteration of `fn sqrt` (the `while y < x` loop): given
current `x`, compute `y = (x + value / x) / 2`; continue while `y < x`.
(The divisor `x` stays ≥ 1 along every execution started by `sqrt` on
`value ≥ 2`, see `sqrtLoop_next_pos`, so Lean's `/` agrees with the
panicking Rust division here.) -/
def sqrtLoop (value x : Nat) : Nat :=
  let y := (x + value / x) / 2
  if _h : y < x then sqrtLoop value y else x
termination_by x

/-- `fn sqrt(value: u128) -> u128` from the source: `value` for
`value < 2`, otherwise Newton's method starting from `value / 2`. -/
def sqrt (value : Nat) : Nat :=
  if value < 2 then value else sqrtLoop value (value / 2)

/-- `pub struct Factory` (the registry). -/
structure Factory where
  owner : Key
  pair_count : Nat
  fee_to : Key
  fee_on : Bool
  last_pair : Key
  deriving DecidableEq, Repr

/-- `pub struct PairAccount` (bump seeds omitted: they never feed any
arithmetic or check in the embedded instruction bodies). -/
structure PairAccount where
  factory : Key
  token0 : Key
  token1 : Key
  reserve0 : Nat
  reserve1 : Nat
  token0_account : Key
  token1_account : Key
  lp_mint : Key
  total_supply : Nat
  is_initialized : Bool
  deriving DecidableEq, Repr

/-- `pub fn create_token_accounts`: the only check the instruction body
performs is `require!(token0.key() != token1.key(), DexError::IdenticalTokens)`. -/
def create_token_accounts (token0 token1 : Key) : Except RtError Unit :=
  if token0 = token1 then .error (.dex .IdenticalTokens) else .ok ()

/-- The accounts handed to `configure_pair` that its body (or its Anchor
account constraints) reads. `sender` is the transaction signer; `owner`
is the separately supplied, non-signing account compared against
`factory.owner` by the `has_one = owner` constraint. -/
structure ConfigureInputs where
  sender : Key
  owner : Key
  token0 : Key
  token1 : Key
  token0_account : Key
  token1_account : Key
  lp_mint : Key
  pairKey : Key
  factoryKey : Key
  deriving DecidableEq, Repr

/-- `pub fn configure_pair` together with the Anchor constraint
`has_one = owner @ DexError::NotFactoryOwner` on `factory` (the only
constraint of `ConfigurePair` that compares identities; `sender` is a
`Signer` but is compared against nothing). -/
def configure_pair (factory : Factory) (pair : PairAccount) (inp : ConfigureInputs) :
    Except RtError (Factory × PairAccount) := do
  if factory.owner ≠ inp.owner then throw (.dex .NotFactoryOwner)
  if pair.is_initialized then throw (.dex .PairAlreadyInitialized)
  let (token0, token1) :=
    if inp.token0 < inp.token1 then (inp.token0, inp.token1) else (inp.token1, inp.token0)
  let pair' : PairAccount :=
    { pair with
      factory := inp.factoryKey
      token0 := token0
      token1 := token1
      reserve0 := 0
      reserve1 := 0
      token0_account := inp.token0_account
      token1_account := inp.token1_account
      lp_mint := inp.lp_mint
      total_supply := 0
      is_initialized := true }
  let factory' : Factory :=
    { factory with
      last_pair := inp.pairKey
      pair_count := (factory.pair_count + 1) % 2 ^ 64 }
  pure (factory', pair')

/-- Result of a successful `add_liquidity`: the updated pair plus the
three quantities the instruction transfers/mints (and emits). -/
structure AddLiquidityResult where
  pair : PairAccount
  amount0 : Nat
  amount1 : Nat
  liquidity : Nat
  deriving DecidableEq, Repr

/-- `pub fn add_liquidity`. Token transfers and LP mints are external
custody effects; the durable pair-state mutation is the reserve/supply
update at the end. `sqrt(...) as u64` is the truncating Rust cast,
modelled by `% 2 ^ 64`. -/
def add_liquidity (pair : PairAccount)
    (amount0_desired amount1_desired amount0_min amount1_min : Nat) :
    Except RtError AddLiquidityResult := do
  if !pair.is_initialized then throw (.dex .PairNotInitialized)
  let reserve0 := pair.reserve0
  let reserve1 := pair.reserve1
  let total_supply := pair.total_supply
  let res ←
    if reserve0 = 0 && reserve1 = 0 then do
      let amount0 ← u64TryFrom amount0_desired
      let amount1 ← u64TryFrom amount1_desired
      let prod ← checkedMul128 amount0 amount1
      let initial_liquidity := sqrt prod % 2 ^ 64
      let liquidity := initial_liquidity - 1000
      if !(liquidity > 0) then throw (.dex .InsufficientLiquidityMinted)
      pure (amount0, amount1, liquidity)
    else do
      let t0 ← checkedMul128 amount0_desired reserve1
      let amount1_optimal ← checkedDiv128 t0 reserve0
      if amount1_optimal ≤ amount1_desired then do
        if !(amount1_optimal ≥ amount1_min) then throw (.dex .InsufficientAmount)
        let t1 ← checkedMul128 amount0_desired total_supply
        let liquidity ← checkedDiv128 t1 reserve0
        let amount0_u64 ← u64TryFrom amount0_desired
        let amount1_u64 ← u64TryFrom amount1_optimal
        let liquidity_u64 ← u64TryFrom liquidity
        pure (amount0_u64, amount1_u64, liquidity_u64)
      else do
        let t2 ← checkedMul128 amount1_desired reserve0
        let amount0_optimal ← checkedDiv128 t2 reserve1
        if !(amount0_optimal ≥ amount0_min) then throw (.dex .InsufficientAmount)
        let t3 ← checkedMul128 amount1_desired total_supply
        let liquidity ← checkedDiv128 t3 reserve1
        let amount0_u64 ← u64TryFrom amount0_optimal
        let amount1_u64 ← u64TryFrom amount1_desired
        let liquidity_u64 ← u64TryFrom liquidity
        pure (amount0_u64, amount1_u64, liquidity_u64)
  let (amount0, amount1, liquidity) := res
  if !(amount0 ≥ amount0_min && amount1 ≥ amount1_min) then throw (.dex .InsufficientAmount)
  let newR0 ← checkedAdd64 reserve0 amount0
  let newR1 ← checkedAdd64 reserve1 amount1
  let ts0 ← checkedAdd64 total_supply liquidity
  let newTS ← if reserve0 = 0 && reserve1 = 0 then checkedAdd64 ts0 1000 else pure ts0
  pure ⟨{ pair with reserve0 := newR0, reserve1 := newR1, total_supply := newTS },
        amount0, amount1, liquidity⟩

/-- Result of a successful `remove_liquidity`. -/
structure RemoveLiquidityResult where
  pair : PairAccount
  amount0 : Nat
  amount1 : Nat
  deriving DecidableEq, Repr

/-- `pub fn remove_liquidity`. -/
def remove_liquidity (pair : PairAccount) (liquidity amount0_min amount1_min : Nat) :
    Except RtError RemoveLiquidityResult := do
  if !pair.is_initialized then throw (.dex .PairNotInitialized)
  let reserve0 := pair.reserve0
  let reserve1 := pair.reserve1
  let total_supply := pair.total_supply
  let liquidity_u64 ← u64TryFrom liquidity
  let t0 ← checkedMul128 liquidity reserve0
  let amount0 ← checkedDiv128 t0 total_supply
  let t1 ← checkedMul128 liquidity reserve1
  let amount1 ← checkedDiv128 t1 total_supply
  if !(amount0 ≥ amount0_min && amount1 ≥ amount1_min) then throw (.dex .InsufficientAmount)
  let amount0_u64 ← u64TryFrom amount0
  let amount1_u64 ← u64TryFrom amount1
  let newR0 ← checkedSub64 reserve0 amount0_u64
  let newR1 ← checkedSub64 reserve1 amount1_u64
  let newTS ← checkedSub64 total_supply liquidity_u64
  pure ⟨{ pair with reserve0 := newR0, reserve1 := newR1, total_supply := newTS },
        amount0_u64, amount1_u64⟩

/-- Result of a successful `swap`. -/
structure SwapResult where
  pair : PairAccount
  amount_in : Nat
  amount_out : Nat
  is_token0_in : Bool
  deriving DecidableEq, Repr

/-- `pub fn swap`. `token_in_mint` is the mint of the caller-supplied
source custody account, matched against `pair.token0` / `pair.token1`
to pick the trade direction. -/
def swap (pair : PairAccount) (token_in_mint : Key) (amount_in amount_out_min : Nat) :
    Except RtError SwapResult := do
  if !pair.is_initialized then throw (.dex .PairNotInitialized)
  let dir ←
    if token_in_mint = pair.token0 then pure (pair.reserve0, pair.reserve1, true)
    else if token_in_mint = pair.token1 then pure (pair.reserve1, pair.reserve0, false)
    else throw (.dex .InvalidTokenAccount)
  let (reserve_in, reserve_out, is_token0_in) := dir
  let amount_in_u64 ← u64TryFrom amount_in
  let amount_in_with_fee ← checkedMul128 amount_in 997
  let numerator ← checkedMul128 amount_in_with_fee reserve_out
  let d0 ← checkedMul128 reserve_in 1000
  let denominator ← checkedAdd128 d0 amount_in_with_fee
  let amount_out ← checkedDiv128 numerator denominator
  if !(amount_out ≥ amount_out_min) then throw (.dex .InsufficientOutputAmount)
  let amount_out_u64 ← u64TryFrom amount_out
  if !(amount_out_u64 > 0) then throw (.dex .InsufficientOutputAmount)
  if !(amount_out_u64 ≤ reserve_out) then throw (.dex .InsufficientLiquidity)
  let newIn ← checkedAdd64 reserve_in amount_in_u64
  let newOut ← checkedSub64 reserve_out amount_out_u64
  let new_reserve0 := if is_token0_in then newIn else newOut
  let new_reserve1 := if is_token0_in then newOut else newIn
  let old_k ← checkedMul128 reserve_in reserve_out
  let new_k ← checkedMul128 new_reserve0 new_reserve1
  if !(new_k ≥ old_k) then throw (.dex .K)
  pure ⟨{ pair with reserve0 := new_reserve0, reserve1 := new_reserve1 },
        amount_in_u64, amount_out_u64, is_token0_in⟩

/-! ### Integer square root: correctness -/

/-- One Newton step from a positive `x` on `value ≥ 2` is again positive,
so the division `value / x` in the loop never has a zero divisor (Lean's
total `/` therefore agrees with the panicking Rust division on every
iteration the program actually runs). -/
theorem sqrtLoop_next_pos (value x : Nat) (hv : 2 ≤ value) (hx : 1 ≤ x) :
    1 ≤ (x + value / x) / 2 := by
  rcases Nat.lt_or_ge x 2 with h | h
  · have hx1 : x = 1 := by omega
    subst hx1
    simp only [Nat.div_one]
    omega
  · have h1 : x / 2 ≤ (x + value / x) / 2 := Nat.div_le_div_right (Nat.le_add_right _ _)
    have h2 : 1 ≤ x / 2 := by omega
    exact le_trans h2 h1

/-- The loop of the source `sqrt` coincides with the Newton iteration
`Nat.sqrt.iter` of the standard library. -/
theorem sqrtLoop_eq_iter (v : Nat) : ∀ x, sqrtLoop v x = Nat.sqrt.iter v x := by
  intro x
  induction x using Nat.strong_induction_on with
  | _ x ih =>
    rw [sqrtLoop, Nat.sqrt.iter]
    split
    · next h => rw [ih _ h]
    · rfl

/-- The source `sqrt` is exactly `Nat.sqrt`. -/
theorem sqrt_eq_nat_sqrt (v : Nat) : sqrt v = Nat.sqrt v := by
  rw [sqrt, Nat.sqrt]
  by_cases h : v < 2
  · rw [if_pos h, if_pos (by omega)]
  · rw [if_neg h, if_neg (by omega), sqrtLoop_eq_iter]

theorem sqrt_le_sq (v : Nat) : sqrt v * sqrt v ≤ v := by
  rw [sqrt_eq_nat_sqrt]; exact Nat.sqrt_le v

theorem lt_succ_sqrt_sq (v : Nat) : v < (sqrt v + 1) * (sqrt v + 1) := by
  rw [sqrt_eq_nat_sqrt]
  simpa [Nat.succ_eq_add_one] using Nat.lt_succ_sqrt v

theorem le_sqrt_of_sq_le (m v : Nat) (h : m * m ≤ v) : m ≤ sqrt v := by
  rw [sqrt_eq_nat_sqrt]; exact Nat.le_sqrt.mpr h

/-! ### Plumbing lemmas for `Except` computations -/

@[simp]
theorem ok_bind {α β : Type} (a : α) (f : α → Except RtError β) :
    (Except.ok a >>= f) = f a := rfl

@[simp]
theorem error_bind {α β : Type} (e : RtError) (f : α → Except RtError β) :
    ((Except.error e : Except RtError α) >>= f) = .error e := rfl

@[simp]
theorem throw_eq_error {α : Type} (e : RtError) :
    (throw e : Except RtError α) = .error e := rfl

@[simp]
theorem pure_eq_ok {α : Type} (a : α) :
    (pure a : Except RtError α) = .ok a := rfl

theorem bind_eq_ok {α β : Type} {x : Except RtError α} {f : α → Except RtError β} {r : β} :
    (x >>= f) = .ok r ↔ ∃ a, x = .ok a ∧ f a = .ok r := by
  cases x <;> simp [Except.bind]

theorem checkedMul128_ok_iff {a b v : Nat} :
    checkedMul128 a b = .ok v ↔ a * b ≤ u128Max ∧ a * b = v := by
  rw [checkedMul128]; split <;> simp_all

theorem checkedAdd128_ok_iff {a b v : Nat} :
    checkedAdd128 a b = .ok v ↔ a + b ≤ u128Max ∧ a + b = v := by
  rw [checkedAdd128]; split <;> simp_all

theorem checkedDiv128_ok_iff {a b v : Nat} :
    checkedDiv128 a b = .ok v ↔ b ≠ 0 ∧ a / b = v := by
  rw [checkedDiv128]; split <;> simp_all

theorem checkedAdd64_ok_iff {a b v : Nat} :
    checkedAdd64 a b = .ok v ↔ a + b ≤ u64Max ∧ a + b = v := by
  rw [checkedAdd64]; split <;> simp_all

theorem checkedSub64_ok_iff {a b v : Nat} :
    checkedSub64 a b = .ok v ↔ b ≤ a ∧ a - b = v := by
  rw [checkedSub64]; split <;> simp_all

theorem u64TryFrom_ok_iff {a v : Nat} :
    u64TryFrom a = .ok v ↔ a ≤ u64Max ∧ a = v := by
  rw [u64TryFrom]; split <;> simp_all

theorem checkedMul128_ok (a b : Nat) (h : a * b ≤ u128Max) :
    checkedMul128 a b = .ok (a * b) := by
  rw [checkedMul128, if_pos h]

theorem checkedAdd128_ok (a b : Nat) (h : a + b ≤ u128Max) :
    checkedAdd128 a b = .ok (a + b) := by
  rw [checkedAdd128, if_pos h]

theorem checkedDiv128_ok (a b : Nat) (h : b ≠ 0) :
    checkedDiv128 a b = .ok (a / b) := by
  rw [checkedDiv128, if_neg h]

theorem checkedAdd64_ok (a b : Nat) (h : a + b ≤ u64Max) :
    checkedAdd64 a b = .ok (a + b) := by
  rw [checkedAdd64, if_pos h]

theorem checkedSub64_ok (a b : Nat) (h : b ≤ a) :
    checkedSub64 a b = .ok (a - b) := by
  rw [checkedSub64, if_pos h]

theorem u64TryFrom_ok (a : Nat) (h : a ≤ u64Max) :
    u64TryFrom a = .ok a := by
  rw [u64TryFrom, if_pos h]

theorem bind_eq_error {α β : Type} {x : Except RtError α} {f : α → Except RtError β}
    {e : RtError} :
    (x >>= f) = .error e ↔ x = .error e ∨ ∃ a, x = .ok a ∧ f a = .error e := by
  cases x <;> simp [Except.bind]

theorem ite_error_ok_iff {c : Prop} [Decidable c] {e : RtError} {α : Type}
    {x : Except RtError α} {r : α} :
    (if c then Except.error e else x) = .ok r ↔ ¬c ∧ x = .ok r := by
  split <;> simp_all

theorem ite_error_error_iff {c : Prop} [Decidable c] {α : Type} {e0 e : RtError}
    {x : Except RtError α} :
    (if c then (Except.error e0 : Except RtError α) else x) = .error e ↔
      (c ∧ e0 = e) ∨ (¬c ∧ x = .error e) := by
  split <;> simp_all

theorem checkedMul128_error_iff {a b : Nat} {e : RtError} :
    checkedMul128 a b = .error e ↔ ¬(a * b ≤ u128Max) ∧ e = .panicOverflow := by
  rw [checkedMul128]; split <;> simp_all [eq_comm]

theorem checkedAdd128_error_iff {a b : Nat} {e : RtError} :
    checkedAdd128 a b = .error e ↔ ¬(a + b ≤ u128Max) ∧ e = .panicOverflow := by
  rw [checkedAdd128]; split <;> simp_all [eq_comm]

theorem checkedDiv128_error_iff {a b : Nat} {e : RtError} :
    checkedDiv128 a b = .error e ↔ b = 0 ∧ e = .panicDivByZero := by
  rw [checkedDiv128]; split <;> simp_all [eq_comm]

theorem checkedAdd64_error_iff {a b : Nat} {e : RtError} :
    checkedAdd64 a b = .error e ↔ ¬(a + b ≤ u64Max) ∧ e = .panicOverflow := by
  rw [checkedAdd64]; split <;> simp_all [eq_comm]

theorem checkedSub64_error_iff {a b : Nat} {e : RtError} :
    checkedSub64 a b = .error e ↔ ¬(b ≤ a) ∧ e = .panicOverflow := by
  rw [checkedSub64]; split <;> simp_all [eq_comm]

theorem u64TryFrom_error_iff {a : Nat} {e : RtError} :
    u64TryFrom a = .error e ↔ ¬(a ≤ u64Max) ∧ e = .dex .AmountOverflow := by
  rw [u64TryFrom]; split <;> simp_all [eq_comm]

/-! ### Arithmetic of the swap formula -/

/-- The computed output never exceeds the output-side reserve. -/
theorem swap_out_le (ri ro a : Nat) :
    a * 997 * ro / (ri * 1000 + a * 997) ≤ ro := by
  rcases Nat.eq_zero_or_pos (ri * 1000 + a * 997) with hd | hd
  · rw [hd, Nat.div_zero]; exact Nat.zero_le _
  · have h1 : a * 997 * ro ≤ (ri * 1000 + a * 997) * ro :=
      mul_le_mul_right' (Nat.le_add_left _ _) ro
    calc a * 997 * ro / (ri * 1000 + a * 997)
        ≤ (ri * 1000 + a * 997) * ro / (ri * 1000 + a * 997) := Nat.div_le_div_right h1
      _ = ro := Nat.mul_div_cancel_left ro hd

/-- Core inequality behind the `K` invariant check: after adding the full
input to the in-reserve and removing the floor-divided output from the
out-reserve, the product of reserves does not decrease. -/
theorem swap_k_preserved (ri ro a : Nat) :
    ri * ro ≤ (ri + a) * (ro - a * 997 * ro / (ri * 1000 + a * 997)) := by
  rcases Nat.eq_zero_or_pos (ri * 1000 + a * 997) with hd | hd
  · have hri : ri = 0 := by omega
    simp [hri]
  · have hole : a * 997 * ro / (ri * 1000 + a * 997) ≤ ro := swap_out_le ri ro a
    set d := ri * 1000 + a * 997 with hdef
    set out := a * 997 * ro / d with hout
    have h1 : out * d ≤ a * 997 * ro := by
      rw [hout]; exact Nat.div_mul_le_self _ _
    have h2 : 997 * (ri + a) ≤ d := by rw [hdef]; omega
    have h3 : out * (997 * (ri + a)) ≤ 997 * (a * ro) := by
      calc out * (997 * (ri + a)) ≤ out * d := mul_le_mul_left' h2 out
        _ ≤ a * 997 * ro := h1
        _ = 997 * (a * ro) := by ring
    have h4 : out * (ri + a) ≤ a * ro := by
      have h5 : 997 * (out * (ri + a)) ≤ 997 * (a * ro) := by
        calc 997 * (out * (ri + a)) = out * (997 * (ri + a)) := by ring
          _ ≤ 997 * (a * ro) := h3
      exact Nat.le_of_mul_le_mul_left h5 (by norm_num)
    obtain ⟨t, ht⟩ : ∃ t, ro = t + out := ⟨ro - out, by omega⟩
    rw [ht] at h4 ⊢
    have h6 : t + out - out = t := by omega
    rw [h6]
    nlinarith [h4]

/-! ### Concrete accounts used by witnesses and counterexamples -/

/-- A pair that has completed configuration and received no deposit. -/
def emptyPair : PairAccount :=
  { factory := 100, token0 := 1, token1 := 2, reserve0 := 0, reserve1 := 0,
    token0_account := 11, token1_account := 12, lp_mint := 13, total_supply := 0,
    is_initialized := true }

/-- A funded pair: reserves 20 000 / 80 000, share supply 20 000 (the worked
example of the specification). -/
def fundedPair : PairAccount :=
  { factory := 100, token0 := 1, token1 := 2, reserve0 := 20000, reserve1 := 80000,
    token0_account := 11, token1_account := 12, lp_mint := 13, total_supply := 20000,
    is_initialized := true }

/-- A funded pair with both reserves at `u64::MAX`. -/
def maxPair : PairAccount :=
  { factory := 100, token0 := 1, token1 := 2, reserve0 := u64Max, reserve1 := u64Max,
    token0_account := 11, token1_account := 12, lp_mint := 13, total_supply := 20000,
    is_initialized := true }

/-- The result of the specification's worked swap example on `fundedPair`:
1 000 of token0 in, 3 798 of token1 out. -/
def swapWitnessRes : SwapResult :=
  ⟨{ fundedPair with reserve0 := 21000, reserve1 := 76202 }, 1000, 3798, true⟩

/-! ### C10: remove_liquidity on a configured pair with zero share supply -/

/-- C10 (amended): on a Configured pair with `total_supply = 0`,
`remove_liquidity` never succeeds: when the requested `liquidity` fits in
`u64` it aborts with the division-by-zero panic of
`checked_div(total_supply).unwrap()`; when `liquidity` exceeds `u64::MAX`
it fails even earlier with the typed `AmountOverflow` error from
`u64::try_from(liquidity)`. In either case no updated pair state is
produced. -/
theorem remove_liquidity_zero_supply (pair : PairAccount) (liq m0 m1 : Nat)
    (hinit : pair.is_initialized = true) (hts : pair.total_supply = 0)
    (hr0 : pair.reserve0 ≤ u64Max) :
    remove_liquidity pair liq m0 m1 =
      if liq ≤ u64Max then .error .panicDivByZero else .error (.dex .AmountOverflow) := by
  rw [remove_liquidity]
  by_cases hliq : liq ≤ u64Max
  · rw [if_pos hliq]
    have h1 : u64TryFrom liq = .ok liq := u64TryFrom_ok _ hliq
    have h2 : checkedMul128 liq pair.reserve0 = .ok (liq * pair.reserve0) := by
      apply checkedMul128_ok
      calc liq * pair.reserve0 ≤ u64Max * u64Max := Nat.mul_le_mul hliq hr0
        _ ≤ u128Max := by norm_num [u64Max, u128Max]
    have h3 : checkedDiv128 (liq * pair.reserve0) pair.total_supply = .error .panicDivByZero := by
      rw [hts, checkedDiv128, if_pos rfl]
    simp [hinit, h1, h2, h3]
  · rw [if_neg hliq]
    have h1 : u64TryFrom liq = .error (.dex .AmountOverflow) := by
      rw [u64TryFrom, if_neg hliq]
    simp [hinit, h1]

theorem remove_liquidity_zero_supply_witness :
    remove_liquidity emptyPair 5 0 0 = .error .panicDivByZero := by
  rw [remove_liquidity_zero_supply emptyPair 5 0 0 rfl rfl (by norm_num [u64Max, emptyPair])]
  norm_num [u64Max]

/-- C10 counterexample: the original claim says every `remove_liquidity`
call on a zero-supply Configured pair aborts with a division-by-zero
panic and not with a typed `DexError`; but with `liquidity = 2^64` the
operation fails with the typed `AmountOverflow` error before any
division is attempted. -/
theorem remove_liquidity_zero_supply_counterexample :
    remove_liquidity emptyPair (2 ^ 64) 0 0 = .error (.dex .AmountOverflow) := by
  have h1 : u64TryFrom 18446744073709551616 = .error (.dex .AmountOverflow) := by
    rw [u64TryFrom, if_neg (by norm_num [u64Max])]
  simp [remove_liquidity, emptyPair, h1]

/-! ### C4: first-deposit share minting -/

set_option maxRecDepth 40000 in
/-- General first-deposit characterization of `add_liquidity`, shared by
several results below. -/
theorem add_liquidity_first_deposit_spec (pair : PairAccount) (d0 d1 m0 m1 : Nat)
    (hinit : pair.is_initialized = true)
    (h0 : pair.reserve0 = 0) (h1 : pair.reserve1 = 0) (hts : pair.total_supply = 0)
    (hd0 : d0 ≤ u64Max) (hd1 : d1 ≤ u64Max) :
    (sqrt (d0 * d1) ≤ 1000 →
      add_liquidity pair d0 d1 m0 m1 = .error (.dex .InsufficientLiquidityMinted)) ∧
    (1000 < sqrt (d0 * d1) → m0 ≤ d0 → m1 ≤ d1 →
      add_liquidity pair d0 d1 m0 m1 =
        .ok ⟨{ pair with
                reserve0 := d0
                reserve1 := d1
                total_supply := (sqrt (d0 * d1) - 1000) + 1000 },
             d0, d1, sqrt (d0 * d1) - 1000⟩) := by
  have hu64 : u64Max = 2 ^ 64 - 1 := rfl
  have hu : u64Max * u64Max ≤ u128Max := by norm_num [u64Max, u128Max]
  have hprod : d0 * d1 ≤ u128Max := le_trans (Nat.mul_le_mul hd0 hd1) hu
  have hsqlt : sqrt (d0 * d1) < 2 ^ 64 := by
    rw [sqrt_eq_nat_sqrt]
    refine Nat.sqrt_lt.mpr ?_
    calc d0 * d1 ≤ u64Max * u64Max := Nat.mul_le_mul hd0 hd1
      _ < 2 ^ 64 * 2 ^ 64 := by norm_num [u64Max]
  have hmod : sqrt (d0 * d1) % 2 ^ 64 = sqrt (d0 * d1) := Nat.mod_eq_of_lt hsqlt
  have ht0 : u64TryFrom d0 = .ok d0 := u64TryFrom_ok _ hd0
  have ht1 : u64TryFrom d1 = .ok d1 := u64TryFrom_ok _ hd1
  have hm : checkedMul128 d0 d1 = .ok (d0 * d1) := checkedMul128_ok _ _ hprod
  constructor
  · intro hle
    have hz : ¬ (0 < sqrt (d0 * d1) % 2 ^ 64 - 1000) := by rw [hmod]; omega
    simp [add_liquidity, hinit, h0, h1, ht0, ht1, hm, hz]
    intro hcon
    exact absurd hcon (by omega)
  · intro hgt hm0 hm1
    have hpos : 0 < sqrt (d0 * d1) % 2 ^ 64 - 1000 := by rw [hmod]; omega
    have hadd0 : checkedAdd64 0 d0 = .ok d0 := by
      simp [checkedAdd64, hd0]
    have hadd1 : checkedAdd64 0 d1 = .ok d1 := by
      simp [checkedAdd64, hd1]
    have haddL : checkedAdd64 0 (sqrt (d0 * d1) % 2 ^ 64 - 1000) =
        .ok (sqrt (d0 * d1) - 1000) := by
      rw [hmod]
      simp [checkedAdd64]
      omega
    have haddF : checkedAdd64 (sqrt (d0 * d1) - 1000) 1000 =
        .ok (sqrt (d0 * d1) - 1000 + 1000) := by
      apply checkedAdd64_ok
      omega
    simp [add_liquidity, hinit, h0, h1, hts, ht0, ht1, hm, hpos, hmod, hm0, hm1,
      hadd0, hadd1, haddL, haddF]
    rw [show (18446744073709551616 : Nat) = 2 ^ 64 from by norm_num, hmod]
    rw [if_neg (by omega), if_neg (by omega)]
    rw [hmod] at haddL
    simp [haddL, haddF]

/-- C4: on a first deposit (both reserves zero) with desired amounts in
`u64` range, `add_liquidity` mints exactly
`floor (sqrt (d0 * d1)) - 1000` shares (truncated subtraction models the
`checked_sub(1000).unwrap_or(0)` clamp), fails with
`InsufficientLiquidityMinted` when that quantity is zero, and on success
records `total_supply = minted + 1000`. -/
theorem add_liquidity_first_deposit (pair : PairAccount) (d0 d1 m0 m1 : Nat)
    (hinit : pair.is_initialized = true)
    (h0 : pair.reserve0 = 0) (h1 : pair.reserve1 = 0) (hts : pair.total_supply = 0)
    (hd0 : d0 ≤ u64Max) (hd1 : d1 ≤ u64Max) :
    (sqrt (d0 * d1) ≤ 1000 →
      add_liquidity pair d0 d1 m0 m1 = .error (.dex .InsufficientLiquidityMinted)) ∧
    (1000 < sqrt (d0 * d1) → m0 ≤ d0 → m1 ≤ d1 →
      add_liquidity pair d0 d1 m0 m1 =
        .ok ⟨{ pair with
                reserve0 := d0
                reserve1 := d1
                total_supply := (sqrt (d0 * d1) - 1000) + 1000 },
             d0, d1, sqrt (d0 * d1) - 1000⟩) :=
  add_liquidity_first_deposit_spec pair d0 d1 m0 m1 hinit h0 h1 hts hd0 hd1

theorem add_liquidity_first_deposit_witness :
    add_liquidity emptyPair 10000 40000 0 0 =
      .ok ⟨{ emptyPair with
              reserve0 := 10000
              reserve1 := 40000
              total_supply := 20000 },
           10000, 40000, 19000⟩ := by
  have hsq : sqrt (10000 * 40000) = 20000 := by
    have hlo : 20000 ≤ sqrt (10000 * 40000) := le_sqrt_of_sq_le _ _ (by norm_num)
    have hhi : sqrt (10000 * 40000) < 20001 := by
      rw [sqrt_eq_nat_sqrt]
      exact Nat.sqrt_lt.mpr (by norm_num)
    omega
  obtain ⟨-, hsucc⟩ := add_liquidity_first_deposit emptyPair 10000 40000 0 0 rfl rfl rfl rfl
    (by norm_num [u64Max]) (by norm_num [u64Max])
  rw [hsucc (by rw [hsq]; norm_num) (by norm_num) (by norm_num)]
  rw [hsq]

/-! ### C5: swap output formula and the InsufficientOutputAmount checks -/

/-- C5 (amended): every successful swap outputs exactly
`floor (amount_in * 997 * reserve_out / (reserve_in * 1000 + amount_in * 997))`;
and whenever the intermediate products fit `u128`, the denominator is
nonzero and the input fits `u64` (so the computation reaches the output
checks), a formula value below `amount_out_min` or equal to zero makes the
swap fail with `InsufficientOutputAmount`. (When
`amount_in * 997 * reserve_out` exceeds `u128::MAX` the operation instead
aborts with an overflow panic before those checks — see the
counterexample.) -/
theorem swap_output_amount (pair : PairAccount) (mint : Key) (a min : Nat) :
    (∀ r, swap pair mint a min = .ok r →
      r.amount_out =
        a * 997 * (if r.is_token0_in then pair.reserve1 else pair.reserve0) /
          ((if r.is_token0_in then pair.reserve0 else pair.reserve1) * 1000 + a * 997)) ∧
    (∀ ri ro : Nat,
      (mint = pair.token0 ∧ ri = pair.reserve0 ∧ ro = pair.reserve1 ∨
        ¬mint = pair.token0 ∧ mint = pair.token1 ∧ ri = pair.reserve1 ∧ ro = pair.reserve0) →
      pair.is_initialized = true → a ≤ u64Max → ri ≤ u64Max →
      a * 997 * ro ≤ u128Max → 0 < ri * 1000 + a * 997 →
      (a * 997 * ro / (ri * 1000 + a * 997) < min ∨
        a * 997 * ro / (ri * 1000 + a * 997) = 0) →
      swap pair mint a min = .error (.dex .InsufficientOutputAmount)) := by
  have hfeeB : ∀ h : a ≤ u64Max, a * 997 ≤ u128Max := fun h =>
    le_trans (mul_le_mul_right' h 997) (by norm_num [u64Max, u128Max])
  constructor
  · intro r h
    cases hinit : pair.is_initialized with
    | false => rw [swap] at h; rw [hinit] at h; simp at h
    | true =>
      by_cases hm0 : mint = pair.token0
      · simp [swap, hinit, hm0, bind_eq_ok, ite_error_ok_iff, checkedMul128_ok_iff,
          checkedAdd128_ok_iff, checkedDiv128_ok_iff, checkedAdd64_ok_iff,
          checkedSub64_ok_iff, u64TryFrom_ok_iff, Prod.exists] at h
        obtain ⟨a1, ⟨ha64, rfl⟩, fee, ⟨hfb, rfl⟩, num, ⟨hnb, rfl⟩, t3, ⟨ht3, rfl⟩,
          den, ⟨hdb, rfl⟩, out, ⟨hden0, rfl⟩, hmin, out64, ⟨houtb, rfl⟩, houtpos, houtle,
          newIn, ⟨hni, rfl⟩, newOut, ⟨hsub, rfl⟩, oldk, ⟨holdb, rfl⟩,
          newk, ⟨hnewb, rfl⟩, hK, hr⟩ := h
        subst hr
        simp
      · by_cases hm1 : mint = pair.token1
        · have hne : ¬(pair.token1 = pair.token0) := by rw [← hm1]; exact hm0
          simp [swap, hinit, hm1, hne, bind_eq_ok, ite_error_ok_iff, checkedMul128_ok_iff,
            checkedAdd128_ok_iff, checkedDiv128_ok_iff, checkedAdd64_ok_iff,
            checkedSub64_ok_iff, u64TryFrom_ok_iff, Prod.exists] at h
          obtain ⟨a1, ⟨ha64, rfl⟩, fee, ⟨hfb, rfl⟩, num, ⟨hnb, rfl⟩, t3, ⟨ht3, rfl⟩,
            den, ⟨hdb, rfl⟩, out, ⟨hden0, rfl⟩, hmin, out64, ⟨houtb, rfl⟩, houtpos, houtle,
            newIn, ⟨hni, rfl⟩, newOut, ⟨hsub, rfl⟩, oldk, ⟨holdb, rfl⟩,
            newk, ⟨hnewb, rfl⟩, hK, hr⟩ := h
          subst hr
          simp
        · rw [swap] at h
          rw [hinit] at h
          simp [hm0, hm1] at h
  · intro ri ro hdir hinit ha hri hnum hden hcond
    have hfee : checkedMul128 a 997 = .ok (a * 997) := checkedMul128_ok _ _ (hfeeB ha)
    have hnumOk : checkedMul128 (a * 997) ro = .ok (a * 997 * ro) := checkedMul128_ok _ _ hnum
    have ht3 : checkedMul128 ri 1000 = .ok (ri * 1000) :=
      checkedMul128_ok _ _ (le_trans (mul_le_mul_right' hri 1000) (by norm_num [u64Max, u128Max]))
    have hdenOk : checkedAdd128 (ri * 1000) (a * 997) = .ok (ri * 1000 + a * 997) := by
      apply checkedAdd128_ok
      have h1 : ri * 1000 ≤ u64Max * 1000 := mul_le_mul_right' hri 1000
      have h2 : a * 997 ≤ u64Max * 997 := mul_le_mul_right' ha 997
      calc ri * 1000 + a * 997 ≤ u64Max * 1000 + u64Max * 997 := Nat.add_le_add h1 h2
        _ ≤ u128Max := by norm_num [u64Max, u128Max]
    have hdiv : checkedDiv128 (a * 997 * ro) (ri * 1000 + a * 997) =
        .ok (a * 997 * ro / (ri * 1000 + a * 997)) := checkedDiv128_ok _ _ (by omega)
    rcases hdir with ⟨hm0, hri0, hro0⟩ | ⟨hm0, hm1, hri0, hro0⟩
    · subst hri0; subst hro0
      by_cases hminle : min ≤ a * 997 * pair.reserve1 / (pair.reserve0 * 1000 + a * 997)
      · have h0 : a * 997 * pair.reserve1 / (pair.reserve0 * 1000 + a * 997) = 0 := by
          rcases hcond with h | h
          · omega
          · exact h
        simp [swap, hinit, hm0, ha, hfee, hnumOk, ht3, hdenOk, hdiv,
          hminle, h0, u64TryFrom]
      · simp [swap, hinit, hm0, ha, hfee, hnumOk, ht3, hdenOk, hdiv, hminle, u64TryFrom]
    · subst hri0; subst hro0
      have hne : ¬(pair.token1 = pair.token0) := by rw [← hm1]; exact hm0
      by_cases hminle : min ≤ a * 997 * pair.reserve0 / (pair.reserve1 * 1000 + a * 997)
      · have h0 : a * 997 * pair.reserve0 / (pair.reserve1 * 1000 + a * 997) = 0 := by
          rcases hcond with h | h
          · omega
          · exact h
        simp [swap, hinit, hm1, hne, ha, hfee, hnumOk, ht3, hdenOk, hdiv,
          hminle, h0, u64TryFrom]
      · simp [swap, hinit, hm1, hne, ha, hfee, hnumOk, ht3, hdenOk, hdiv,
          hminle, u64TryFrom]

theorem swap_output_amount_witness :
    (SolanaDex.swap fundedPair 1 1000 0 = .ok swapWitnessRes ∧
      swapWitnessRes.amount_out =
        1000 * 997 * fundedPair.reserve1 / (fundedPair.reserve0 * 1000 + 1000 * 997)) ∧
    SolanaDex.swap fundedPair 1 1000 1000000 = .error (.dex .InsufficientOutputAmount) := by
  have hok : SolanaDex.swap fundedPair 1 1000 0 = .ok swapWitnessRes := by rfl
  refine ⟨⟨hok, ?_⟩, ?_⟩
  · have h := (swap_output_amount fundedPair 1 1000 0).1 swapWitnessRes hok
    simpa [swapWitnessRes] using h
  · refine (swap_output_amount fundedPair 1 1000 1000000).2 20000 80000 (Or.inl ?_)
      rfl (by norm_num [u64Max]) (by norm_num [fundedPair, u64Max])
      (by norm_num [fundedPair, u128Max]) (by norm_num [fundedPair]) (Or.inl ?_)
    · exact ⟨rfl, rfl, rfl⟩
    · norm_num

/-- C5 counterexample: at `amount_in = reserve_out = u64::MAX` the
numerator multiplication `amount_in_with_fee * reserve_out` exceeds
`u128::MAX`, so the swap aborts with an overflow panic even though the
formula value is below `amount_out_min`; the claim's promised
`InsufficientOutputAmount` failure does not happen. -/
theorem swap_output_amount_counterexample :
    SolanaDex.swap maxPair 1 u64Max u128Max = .error .panicOverflow ∧
      u64Max * 997 * maxPair.reserve1 / (maxPair.reserve0 * 1000 + u64Max * 997) < u128Max := by
  constructor
  · rfl
  · decide

/-! ### C1: the constant-product value never decreases across a swap -/

/-- C1: every successful swap leaves the product of the stored reserves
at least as large as before, and the `K` (`InvariantViolated`) error
branch — checked after both reserve updates — is never taken: no input
whatsoever makes `swap` return `DexError::K`. -/
theorem swap_k_never_violated (pair : PairAccount) (mint : Key) (a min : Nat) :
    (∀ r, swap pair mint a min = .ok r →
      pair.reserve0 * pair.reserve1 ≤ r.pair.reserve0 * r.pair.reserve1) ∧
    swap pair mint a min ≠ .error (.dex .K) := by
  constructor
  · intro r h
    cases hinit : pair.is_initialized with
    | false => rw [swap] at h; rw [hinit] at h; simp at h
    | true =>
      by_cases hm0 : mint = pair.token0
      · simp [swap, hinit, hm0, bind_eq_ok, ite_error_ok_iff, checkedMul128_ok_iff,
          checkedAdd128_ok_iff, checkedDiv128_ok_iff, checkedAdd64_ok_iff,
          checkedSub64_ok_iff, u64TryFrom_ok_iff, Prod.exists] at h
        obtain ⟨a1, ⟨ha64, rfl⟩, fee, ⟨hfb, rfl⟩, num, ⟨hnb, rfl⟩, t3, ⟨ht3, rfl⟩,
          den, ⟨hdb, rfl⟩, out, ⟨hden0, rfl⟩, hmin, out64, ⟨houtb, rfl⟩, houtpos, houtle,
          newIn, ⟨hni, rfl⟩, newOut, ⟨hsub, rfl⟩, oldk, ⟨holdb, rfl⟩,
          newk, ⟨hnewb, rfl⟩, hK, hr⟩ := h
        subst hr
        simpa using hK
      · by_cases hm1 : mint = pair.token1
        · have hne : ¬(pair.token1 = pair.token0) := by rw [← hm1]; exact hm0
          simp [swap, hinit, hm1, hne, bind_eq_ok, ite_error_ok_iff, checkedMul128_ok_iff,
            checkedAdd128_ok_iff, checkedDiv128_ok_iff, checkedAdd64_ok_iff,
            checkedSub64_ok_iff, u64TryFrom_ok_iff, Prod.exists] at h
          obtain ⟨a1, ⟨ha64, rfl⟩, fee, ⟨hfb, rfl⟩, num, ⟨hnb, rfl⟩, t3, ⟨ht3, rfl⟩,
            den, ⟨hdb, rfl⟩, out, ⟨hden0, rfl⟩, hmin, out64, ⟨houtb, rfl⟩, houtpos, houtle,
            newIn, ⟨hni, rfl⟩, newOut, ⟨hsub, rfl⟩, oldk, ⟨holdb, rfl⟩,
            newk, ⟨hnewb, rfl⟩, hK, hr⟩ := h
          subst hr
          simp only [SwapResult.pair]
          calc pair.reserve0 * pair.reserve1 = pair.reserve1 * pair.reserve0 := by ring
            _ ≤ _ := by simpa using hK
        · rw [swap] at h
          rw [hinit] at h
          simp [hm0, hm1] at h
  · intro hcon
    cases hinit : pair.is_initialized with
    | false => rw [swap] at hcon; rw [hinit] at hcon; simp at hcon
    | true =>
      by_cases hm0 : mint = pair.token0
      · simp [swap, hinit, hm0, bind_eq_ok, bind_eq_error, ite_error_ok_iff,
          ite_error_error_iff, checkedMul128_ok_iff, checkedMul128_error_iff,
          checkedAdd128_ok_iff, checkedAdd128_error_iff, checkedDiv128_ok_iff,
          checkedDiv128_error_iff, checkedAdd64_ok_iff, checkedAdd64_error_iff,
          checkedSub64_ok_iff, checkedSub64_error_iff, u64TryFrom_ok_iff,
          u64TryFrom_error_iff, Prod.exists] at hcon
        obtain ⟨a1, ⟨ha64, rfl⟩, fee, ⟨hfb, rfl⟩, num, ⟨hnb, rfl⟩, t3, ⟨ht3b, rfl⟩,
          den, ⟨hdb, rfl⟩, out, ⟨hden0, rfl⟩, hmin, out64, ⟨houtb, rfl⟩, houtpos, houtle,
          newIn, ⟨hni, rfl⟩, newOut, ⟨hsub, rfl⟩, oldk, ⟨holdb, rfl⟩,
          newk, ⟨hnewb, rfl⟩, hlt⟩ := hcon
        exact absurd hlt (not_lt.mpr (swap_k_preserved pair.reserve0 pair.reserve1 a))
      · by_cases hm1 : mint = pair.token1
        · have hne : ¬(pair.token1 = pair.token0) := by rw [← hm1]; exact hm0
          simp [swap, hinit, hm1, hne, bind_eq_ok, bind_eq_error, ite_error_ok_iff,
            ite_error_error_iff, checkedMul128_ok_iff, checkedMul128_error_iff,
            checkedAdd128_ok_iff, checkedAdd128_error_iff, checkedDiv128_ok_iff,
            checkedDiv128_error_iff, checkedAdd64_ok_iff, checkedAdd64_error_iff,
            checkedSub64_ok_iff, checkedSub64_error_iff, u64TryFrom_ok_iff,
            u64TryFrom_error_iff, Prod.exists] at hcon
          obtain ⟨a1, ⟨ha64, rfl⟩, fee, ⟨hfb, rfl⟩, num, ⟨hnb, rfl⟩, t3, ⟨ht3b, rfl⟩,
            den, ⟨hdb, rfl⟩, out, ⟨hden0, rfl⟩, hmin, out64, ⟨houtb, rfl⟩, houtpos, houtle,
            newIn, ⟨hni, rfl⟩, newOut, ⟨hsub, rfl⟩, oldk, ⟨holdb, rfl⟩,
            newk, ⟨hnewb, rfl⟩, hlt⟩ := hcon
          nlinarith [swap_k_preserved pair.reserve1 pair.reserve0 a, hlt]
        · rw [swap] at hcon
          rw [hinit] at hcon
          simp only [Bool.not_true] at hcon
          rw [if_neg Bool.false_ne_true, if_neg hm0, if_neg hm1] at hcon
          rw [pure_eq_ok, ok_bind] at hcon
          injection hcon with h2
          injection h2 with h3
          cases h3

theorem swap_k_never_violated_witness :
    fundedPair.reserve0 * fundedPair.reserve1 ≤
      swapWitnessRes.pair.reserve0 * swapWitnessRes.pair.reserve1 ∧
    SolanaDex.swap fundedPair 1 1000 0 ≠ .error (.dex .K) := by
  have h := swap_k_never_violated fundedPair 1 1000 0
  exact ⟨h.1 swapWitnessRes (by rfl), h.2⟩

/-! ### C8: integer square root -/

/-- C8: `sqrt` returns the floor of the real square root of its input —
its square does not exceed the input, and it is the largest integer with
that property — and for `value < 2` it returns `value` itself. (The
function is total in Lean, which witnesses termination of the Newton
iteration for every input; `sqrtLoop_next_pos` shows the loop divisor
stays positive.) -/
theorem sqrt_floor_correct (v : Nat) :
    sqrt v * sqrt v ≤ v ∧ (∀ m : Nat, m * m ≤ v → m ≤ sqrt v) ∧ (v < 2 → sqrt v = v) := by
  refine ⟨sqrt_le_sq v, fun m hm => le_sqrt_of_sq_le m v hm, fun hv => ?_⟩
  rw [sqrt, if_pos hv]

theorem sqrt_floor_correct_witness :
    sqrt 123456 * sqrt 123456 ≤ 123456 ∧ 351 ≤ sqrt 123456 ∧ sqrt 1 = 1 := by
  obtain ⟨h1, h2, -⟩ := sqrt_floor_correct 123456
  obtain ⟨-, -, h3⟩ := sqrt_floor_correct 1
  exact ⟨h1, h2 351 (by norm_num), h3 (by norm_num)⟩

/-! ### C2: authorization of configure_pair -/

/-- A registry whose recorded owner is key 1. -/
def cfgFactory : Factory :=
  { owner := 1, pair_count := 0, fee_to := 0, fee_on := false, last_pair := 0 }

/-- A freshly allocated, not yet configured pair account. -/
def cfgPairBlank : PairAccount :=
  { factory := 0, token0 := 0, token1 := 0, reserve0 := 0, reserve1 := 0,
    token0_account := 0, token1_account := 0, lp_mint := 0, total_supply := 0,
    is_initialized := false }

/-- Accounts for a `configure_pair` call whose signer (`sender = 2`) is
not the registry owner (`1`), but which passes the owner's key as the
non-signing `owner` account. -/
def cfgInputs : ConfigureInputs :=
  { sender := 2, owner := 1, token0 := 3, token1 := 4, token0_account := 11,
    token1_account := 12, lp_mint := 13, pairKey := 20, factoryKey := 21 }

/-- The registry after the configuration of `cfgInputs`. -/
def cfgFactoryAfter : Factory :=
  { owner := 1, pair_count := 1, fee_to := 0, fee_on := false, last_pair := 20 }

/-- The pair stored by the configuration of `cfgInputs`. -/
def cfgPairAfter : PairAccount :=
  { factory := 21, token0 := 3, token1 := 4, reserve0 := 0, reserve1 := 0,
    token0_account := 11, token1_account := 12, lp_mint := 13, total_supply := 0,
    is_initialized := true }

/-- C2 (code observation): `ConfigurePair` checks only
`has_one = owner @ DexError::NotFactoryOwner`, i.e. that the supplied
non-signing `owner` account's address equals `factory.owner`; the
transaction signer `sender` is compared against nothing. A caller whose
identity (`sender = 2`) differs from the registry owner (`1`)
successfully configures the pair by passing the owner's public key as
the `owner` account, contradicting the claim that the configuration
cannot take effect for any caller other than the registry owner. -/
theorem configure_pair_unauthorized_sender_succeeds :
    configure_pair cfgFactory cfgPairBlank cfgInputs = .ok (cfgFactoryAfter, cfgPairAfter) ∧
    cfgInputs.sender ≠ cfgFactory.owner ∧
    cfgPairAfter.is_initialized = true := by
  refine ⟨by rfl, by norm_num [cfgInputs, cfgFactory], rfl⟩

/-! ### C3: equal token identifiers -/

/-- C3 (amended): `create_token_accounts` fails with `IdenticalTokens`
exactly when its two supplied mints are equal, but `configure_pair`
performs no distinctness check: a successful configuration stores equal
token identifiers precisely when it was given equal mints, so a
Configured pair with `token0 = token1` is producible. -/
theorem identical_tokens_checks (t0 t1 : Key) :
    (create_token_accounts t0 t1 = .error (.dex .IdenticalTokens) ↔ t0 = t1) ∧
    (∀ (f : Factory) (p : PairAccount) (inp : ConfigureInputs) (out : Factory × PairAccount),
      configure_pair f p inp = .ok out →
      (out.2.token0 = out.2.token1 ↔ inp.token0 = inp.token1)) := by
  constructor
  · rw [create_token_accounts]
    split <;> simp_all
  · intro f p inp out h
    by_cases howner : f.owner = inp.owner
    · cases hpinit : p.is_initialized with
      | true => simp [configure_pair, howner, hpinit] at h
      | false =>
        simp [configure_pair, howner, hpinit] at h
        rw [← h]
        by_cases hlt : inp.token0 < inp.token1
        · simp [hlt]
        · simp only [if_neg hlt]
          exact eq_comm
    · simp [configure_pair, howner] at h

theorem identical_tokens_checks_witness :
    create_token_accounts 7 7 = .error (.dex .IdenticalTokens) ∧
    (cfgPairAfter.token0 = cfgPairAfter.token1 ↔ cfgInputs.token0 = cfgInputs.token1) := by
  obtain ⟨h1, -⟩ := identical_tokens_checks 7 7
  obtain ⟨-, h2⟩ := identical_tokens_checks cfgInputs.token0 cfgInputs.token1
  exact ⟨h1.mpr rfl, h2 cfgFactory cfgPairBlank cfgInputs (cfgFactoryAfter, cfgPairAfter) (by rfl)⟩

/-- Accounts for a `configure_pair` call supplying the SAME mint (key 5)
as both tokens. -/
def cfgInputsEq : ConfigureInputs :=
  { sender := 1, owner := 1, token0 := 5, token1 := 5, token0_account := 11,
    token1_account := 12, lp_mint := 13, pairKey := 20, factoryKey := 21 }

/-- The pair stored by the configuration of `cfgInputsEq`: both token
identifiers equal 5. -/
def cfgPairEqAfter : PairAccount :=
  { factory := 21, token0 := 5, token1 := 5, reserve0 := 0, reserve1 := 0,
    token0_account := 11, token1_account := 12, lp_mint := 13, total_supply := 0,
    is_initialized := true }

/-- C3 counterexample: `configure_pair` called with `token0 = token1 = 5`
on a fresh pair succeeds and stores a Configured pair whose two token
identifiers are equal — the claimed invariant `token_a != token_b` does
not hold in every reachable Configured state. -/
theorem configure_pair_equal_tokens_counterexample :
    configure_pair cfgFactory cfgPairBlank cfgInputsEq = .ok (cfgFactoryAfter, cfgPairEqAfter) ∧
    cfgPairEqAfter.token0 = cfgPairEqAfter.token1 ∧
    cfgPairEqAfter.is_initialized = true :=
  ⟨by rfl, rfl, rfl⟩

/-! ### Success characterizations of add_liquidity and remove_liquidity -/

set_option maxRecDepth 40000 in
/-- Everything a successful `add_liquidity` guarantees, by branch:
reserves grow by the transferred amounts; on a first deposit (both
reserves zero) the amounts are the full desired amounts, the minted
shares are `sqrt (d0 * d1) - 1000 > 0` and the supply additionally gains
the 1000 permanently locked shares; otherwise the binding-side formulas
of the source apply and `reserve0 ≠ 0` (it is a divisor). -/
theorem add_liquidity_ok_cases {pair : PairAccount} {d0 d1 m0 m1 : Nat}
    {r : AddLiquidityResult} (h : add_liquidity pair d0 d1 m0 m1 = .ok r) :
    pair.is_initialized = true ∧
    r.pair.reserve0 = pair.reserve0 + r.amount0 ∧
    r.pair.reserve1 = pair.reserve1 + r.amount1 ∧
    r.pair.token0 = pair.token0 ∧ r.pair.token1 = pair.token1 ∧
    r.pair.is_initialized = pair.is_initialized ∧
    ((pair.reserve0 = 0 ∧ pair.reserve1 = 0 ∧
        r.amount0 = d0 ∧ r.amount1 = d1 ∧
        r.liquidity = sqrt (d0 * d1) - 1000 ∧ 0 < r.liquidity ∧
        0 < r.amount0 ∧ 0 < r.amount1 ∧
        r.pair.total_supply = pair.total_supply + r.liquidity + 1000) ∨
      (¬(pair.reserve0 = 0 ∧ pair.reserve1 = 0) ∧ pair.reserve0 ≠ 0 ∧
        r.pair.total_supply = pair.total_supply + r.liquidity ∧
        ((r.amount0 = d0 ∧ r.amount1 = d0 * pair.reserve1 / pair.reserve0 ∧
            r.liquidity = d0 * pair.total_supply / pair.reserve0) ∨
          (pair.reserve1 ≠ 0 ∧
            r.amount0 = d1 * pair.reserve0 / pair.reserve1 ∧ r.amount1 = d1 ∧
            r.liquidity = d1 * pair.total_supply / pair.reserve1)))) := by
  cases hinit : pair.is_initialized with
  | false => rw [add_liquidity] at h; rw [hinit] at h; simp at h
  | true =>
    by_cases h0 : pair.reserve0 = 0
    · by_cases h1 : pair.reserve1 = 0
      · simp [add_liquidity, hinit, h0, h1, bind_eq_ok, ite_error_ok_iff,
          checkedMul128_ok_iff, u64TryFrom_ok_iff, checkedAdd64_ok_iff, Prod.exists] at h
        obtain ⟨a0, ⟨hd0u, rfl⟩, a1, ⟨hd1u, rfl⟩, prod, ⟨hpb, rfl⟩, hLpos, hmins,
          nR0, ⟨hnR0, rfl⟩, nR1, ⟨hnR1, rfl⟩, ts0, ⟨hts0, rfl⟩, tsF, ⟨htsF, rfl⟩, hrec⟩ := h
        have hsqlt : sqrt (d0 * d1) < 2 ^ 64 := by
          rw [sqrt_eq_nat_sqrt]
          refine Nat.sqrt_lt.mpr ?_
          calc d0 * d1 ≤ u64Max * u64Max := Nat.mul_le_mul hd0u hd1u
            _ < 2 ^ 64 * 2 ^ 64 := by norm_num [u64Max]
        have hmod : sqrt (d0 * d1) % 18446744073709551616 = sqrt (d0 * d1) :=
          Nat.mod_eq_of_lt (by simpa using hsqlt)
        rw [hmod] at hLpos hrec
        have hprodpos : d0 * d1 ≠ 0 := by
          intro hzz
          rw [hzz] at hLpos
          simp [sqrt] at hLpos
        obtain ⟨hd0pos, hd1pos⟩ := Nat.mul_ne_zero_iff.mp hprodpos
        subst hrec
        refine ⟨rfl, by simp [h0], by simp [h1], rfl, rfl, rfl, Or.inl ?_⟩
        exact ⟨h0, h1, rfl, rfl, rfl,
          show 0 < sqrt (d0 * d1) - 1000 by omega,
          show 0 < d0 by omega,
          show 0 < d1 by omega, rfl⟩
      · simp [add_liquidity, hinit, h0, h1, bind_eq_ok, ite_error_ok_iff,
          checkedMul128_ok_iff, checkedDiv128_ok_iff, u64TryFrom_ok_iff,
          checkedAdd64_ok_iff, Prod.exists] at h
    · simp [add_liquidity, hinit, h0, bind_eq_ok, ite_error_ok_iff,
        checkedMul128_ok_iff, checkedDiv128_ok_iff, u64TryFrom_ok_iff,
        checkedAdd64_ok_iff, Prod.exists] at h
      obtain ⟨t0, ⟨ht0b, rfl⟩, hres⟩ := h
      by_cases hA : d0 * pair.reserve1 / pair.reserve0 ≤ d1
      · rw [if_pos hA] at hres
        simp [bind_eq_ok, ite_error_ok_iff, checkedMul128_ok_iff, checkedDiv128_ok_iff,
          u64TryFrom_ok_iff, checkedAdd64_ok_iff, Prod.exists] at hres
        obtain ⟨hguard, t1, ⟨ht1b, rfl⟩, L, ⟨hr0ne, rfl⟩, a0u, ⟨ha0b, rfl⟩,
          a1u, ⟨ha1b, rfl⟩, Lu, ⟨hLb, rfl⟩, hmins,
          nR0, ⟨hnR0, rfl⟩, nR1, ⟨hnR1, rfl⟩, ts0, ⟨hts0, rfl⟩, hrec⟩ := hres
        subst hrec
        exact ⟨rfl, rfl, rfl, rfl, rfl, rfl,
          Or.inr ⟨by tauto, h0, rfl, Or.inl ⟨rfl, rfl, rfl⟩⟩⟩
      · rw [if_neg hA] at hres
        simp [bind_eq_ok, ite_error_ok_iff, checkedMul128_ok_iff, checkedDiv128_ok_iff,
          u64TryFrom_ok_iff, checkedAdd64_ok_iff, Prod.exists] at hres
        obtain ⟨t2, ⟨ht2b, rfl⟩, opt0, ⟨hr1ne, rfl⟩, hguard, t3, ⟨ht3b, rfl⟩,
          L, ⟨hr1ne2, rfl⟩, a0u, ⟨ha0b, rfl⟩, a1u, ⟨ha1b, rfl⟩, Lu, ⟨hLb, rfl⟩, hmins,
          nR0, ⟨hnR0, rfl⟩, nR1, ⟨hnR1, rfl⟩, ts0, ⟨hts0, rfl⟩, hrec⟩ := hres
        subst hrec
        exact ⟨rfl, rfl, rfl, rfl, rfl, rfl,
          Or.inr ⟨by tauto, h0, rfl, Or.inr ⟨hr1ne, rfl, rfl, rfl⟩⟩⟩

/-- Everything a successful `remove_liquidity` guarantees: the supply is
nonzero (it is a divisor), the redeemed shares fit below it, the two
amounts are the floor-proportional shares of the reserves, and the new
state subtracts exactly those quantities. -/
theorem remove_liquidity_ok_cases {pair : PairAccount} {liq m0 m1 : Nat}
    {r : RemoveLiquidityResult} (h : remove_liquidity pair liq m0 m1 = .ok r) :
    pair.is_initialized = true ∧
    pair.total_supply ≠ 0 ∧ liq ≤ pair.total_supply ∧
    r.amount0 = liq * pair.reserve0 / pair.total_supply ∧
    r.amount1 = liq * pair.reserve1 / pair.total_supply ∧
    r.amount0 ≤ pair.reserve0 ∧ r.amount1 ≤ pair.reserve1 ∧
    r.pair.reserve0 = pair.reserve0 - r.amount0 ∧
    r.pair.reserve1 = pair.reserve1 - r.amount1 ∧
    r.pair.total_supply = pair.total_supply - liq ∧
    r.pair.token0 = pair.token0 ∧ r.pair.token1 = pair.token1 ∧
    r.pair.is_initialized = pair.is_initialized := by
  cases hinit : pair.is_initialized with
  | false => rw [remove_liquidity] at h; rw [hinit] at h; simp at h
  | true =>
    simp [remove_liquidity, hinit, bind_eq_ok, ite_error_ok_iff, checkedMul128_ok_iff,
      checkedDiv128_ok_iff, checkedSub64_ok_iff, u64TryFrom_ok_iff, Prod.exists] at h
    obtain ⟨liqu, ⟨hliqb, rfl⟩, t0, ⟨ht0b, rfl⟩, a0, ⟨hts0, rfl⟩, t1, ⟨ht1b, rfl⟩,
      a1, ⟨hts1, rfl⟩, hmins, a0u, ⟨ha0b, rfl⟩, a1u, ⟨ha1b, rfl⟩,
      nR0, ⟨hsub0, rfl⟩, nR1, ⟨hsub1, rfl⟩, nTS, ⟨hsubT, rfl⟩, hrec⟩ := h
    subst hrec
    exact ⟨rfl, hts0, hsubT, rfl, rfl, hsub0, hsub1, rfl, rfl, rfl, rfl, rfl, rfl⟩

/-- Everything a successful `swap` guarantees about the pair state: the
share supply and token identifiers are untouched, the output is positive,
and in the matched direction the in-reserve gains the input while the
out-reserve loses exactly the formula output (which fits below it). -/
theorem swap_ok_cases {pair : PairAccount} {mint : Key} {a min : Nat} {r : SwapResult}
    (h : swap pair mint a min = .ok r) :
    pair.is_initialized = true ∧
    r.pair.total_supply = pair.total_supply ∧
    r.pair.token0 = pair.token0 ∧ r.pair.token1 = pair.token1 ∧
    r.pair.is_initialized = pair.is_initialized ∧
    0 < r.amount_out ∧
    ((r.amount_out = a * 997 * pair.reserve1 / (pair.reserve0 * 1000 + a * 997) ∧
        r.amount_out ≤ pair.reserve1 ∧
        r.pair.reserve0 = pair.reserve0 + r.amount_in ∧
        r.pair.reserve1 = pair.reserve1 - r.amount_out) ∨
      (r.amount_out = a * 997 * pair.reserve0 / (pair.reserve1 * 1000 + a * 997) ∧
        r.amount_out ≤ pair.reserve0 ∧
        r.pair.reserve1 = pair.reserve1 + r.amount_in ∧
        r.pair.reserve0 = pair.reserve0 - r.amount_out)) := by
  cases hinit : pair.is_initialized with
  | false => rw [swap] at h; rw [hinit] at h; simp at h
  | true =>
    by_cases hm0 : mint = pair.token0
    · simp [swap, hinit, hm0, bind_eq_ok, ite_error_ok_iff, checkedMul128_ok_iff,
        checkedAdd128_ok_iff, checkedDiv128_ok_iff, checkedAdd64_ok_iff,
        checkedSub64_ok_iff, u64TryFrom_ok_iff, Prod.exists] at h
      obtain ⟨a1, ⟨ha64, rfl⟩, fee, ⟨hfb, rfl⟩, num, ⟨hnb, rfl⟩, t3, ⟨ht3, rfl⟩,
        den, ⟨hdb, rfl⟩, out, ⟨hden0, rfl⟩, hmin, out64, ⟨houtb, rfl⟩, houtpos, houtle,
        newIn, ⟨hni, rfl⟩, newOut, ⟨hsub, rfl⟩, oldk, ⟨holdb, rfl⟩,
        newk, ⟨hnewb, rfl⟩, hK, hrec⟩ := h
      subst hrec
      exact ⟨rfl, rfl, rfl, rfl, rfl,
        show 0 < a * 997 * pair.reserve1 / (pair.reserve0 * 1000 + a * 997) by omega,
        Or.inl ⟨rfl, houtle, rfl, rfl⟩⟩
    · by_cases hm1 : mint = pair.token1
      · have hne : ¬(pair.token1 = pair.token0) := by rw [← hm1]; exact hm0
        simp [swap, hinit, hm1, hne, bind_eq_ok, ite_error_ok_iff, checkedMul128_ok_iff,
          checkedAdd128_ok_iff, checkedDiv128_ok_iff, checkedAdd64_ok_iff,
          checkedSub64_ok_iff, u64TryFrom_ok_iff, Prod.exists] at h
        obtain ⟨a1, ⟨ha64, rfl⟩, fee, ⟨hfb, rfl⟩, num, ⟨hnb, rfl⟩, t3, ⟨ht3, rfl⟩,
          den, ⟨hdb, rfl⟩, out, ⟨hden0, rfl⟩, hmin, out64, ⟨houtb, rfl⟩, houtpos, houtle,
          newIn, ⟨hni, rfl⟩, newOut, ⟨hsub, rfl⟩, oldk, ⟨holdb, rfl⟩,
          newk, ⟨hnewb, rfl⟩, hK, hrec⟩ := h
        subst hrec
        exact ⟨rfl, rfl, rfl, rfl, rfl,
          show 0 < a * 997 * pair.reserve0 / (pair.reserve1 * 1000 + a * 997) by omega,
          Or.inr ⟨rfl, houtle, rfl, rfl⟩⟩
      · rw [swap] at h
        rw [hinit] at h
        simp [hm0, hm1] at h

/-! ### C6: zero share supply iff zero reserves, on all reachable states -/

/-- A successful `configure_pair` stores zero reserves, zero supply, and
marks the pair configured. -/
theorem configure_pair_ok_state {factory : Factory} {pair : PairAccount}
    {inp : ConfigureInputs} {f' : Factory} {p' : PairAccount}
    (h : configure_pair factory pair inp = .ok (f', p')) :
    p'.reserve0 = 0 ∧ p'.reserve1 = 0 ∧ p'.total_supply = 0 ∧ p'.is_initialized = true := by
  by_cases howner : factory.owner = inp.owner
  · cases hpinit : pair.is_initialized with
    | true => simp [configure_pair, howner, hpinit] at h
    | false =>
      simp [configure_pair, howner, hpinit] at h
      rw [← h.2]
      exact ⟨rfl, rfl, rfl, rfl⟩
  · simp [configure_pair, howner] at h

/-- With both reserves positive, the swap output is strictly below the
out-reserve. -/
theorem swap_out_lt (ri ro a : Nat) (hri : 0 < ri) (hro : 0 < ro) :
    a * 997 * ro / (ri * 1000 + a * 997) < ro := by
  have hd : 0 < ri * 1000 + a * 997 := by omega
  rw [Nat.div_lt_iff_lt_mul hd]
  nlinarith [hri, hro]

/-- Pair states reachable from a successful configuration by any
sequence of successful `add_liquidity`, `remove_liquidity`, and `swap`
operations. -/
inductive Reachable : PairAccount → Prop where
  | configured : ∀ (factory : Factory) (pair : PairAccount) (inp : ConfigureInputs)
      (f' : Factory) (p' : PairAccount),
      configure_pair factory pair inp = .ok (f', p') → Reachable p'
  | add : ∀ (p : PairAccount) (d0 d1 m0 m1 : Nat) (r : AddLiquidityResult),
      Reachable p → add_liquidity p d0 d1 m0 m1 = .ok r → Reachable r.pair
  | remove : ∀ (p : PairAccount) (liq m0 m1 : Nat) (r : RemoveLiquidityResult),
      Reachable p → remove_liquidity p liq m0 m1 = .ok r → Reachable r.pair
  | swapped : ∀ (p : PairAccount) (mint : Key) (a min : Nat) (r : SwapResult),
      Reachable p → swap p mint a min = .ok r → Reachable r.pair

/-- The strengthened inductive invariant: the pair is either empty (zero
supply, both reserves zero) or funded (positive supply, both reserves
positive). -/
def FundedOrEmpty (p : PairAccount) : Prop :=
  (p.total_supply = 0 ∧ p.reserve0 = 0 ∧ p.reserve1 = 0) ∨
    (0 < p.total_supply ∧ 0 < p.reserve0 ∧ 0 < p.reserve1)

theorem reachable_funded_or_empty {p : PairAccount} (h : Reachable p) :
    FundedOrEmpty p := by
  induction h with
  | configured factory pair inp f' p' hc =>
    obtain ⟨h0, h1, hts, -⟩ := configure_pair_ok_state hc
    exact Or.inl ⟨hts, h0, h1⟩
  | add p d0 d1 m0 m1 r hreach hop ih =>
    obtain ⟨hinit, hr0, hr1, -, -, -, hcases⟩ := add_liquidity_ok_cases hop
    rcases hcases with ⟨hz0, hz1, ha0, ha1, hL, hLpos, ha0p, ha1p, hts⟩ | ⟨hnz, hr0ne, hts, -⟩
    · exact Or.inr ⟨by omega, by omega, by omega⟩
    · rcases ih with ⟨hts0, hz0, hz1⟩ | ⟨htsp, hr0p, hr1p⟩
      · exact absurd ⟨hz0, hz1⟩ hnz
      · exact Or.inr ⟨by omega, by omega, by omega⟩
  | remove p liq m0 m1 r hreach hop ih =>
    obtain ⟨hinit, htsne, hliq, ha0, ha1, hle0, hle1, hnr0, hnr1, hnts, -, -, -⟩ :=
      remove_liquidity_ok_cases hop
    rcases ih with ⟨hts0, -, -⟩ | ⟨htsp, hr0p, hr1p⟩
    · exact absurd hts0 htsne
    · rcases Nat.lt_or_ge liq p.total_supply with hlt | hge
      · have h0lt : r.amount0 < p.reserve0 := by
          rw [ha0, Nat.div_lt_iff_lt_mul htsp]
          nlinarith [hr0p, hlt]
        have h1lt : r.amount1 < p.reserve1 := by
          rw [ha1, Nat.div_lt_iff_lt_mul htsp]
          nlinarith [hr1p, hlt]
        exact Or.inr ⟨by omega, by omega, by omega⟩
      · have hliqe : liq = p.total_supply := le_antisymm hliq hge
        subst hliqe
        have e0 : r.amount0 = p.reserve0 := by
          rw [ha0]
          exact Nat.mul_div_cancel_left p.reserve0 htsp
        have e1 : r.amount1 = p.reserve1 := by
          rw [ha1]
          exact Nat.mul_div_cancel_left p.reserve1 htsp
        exact Or.inl ⟨by omega, by omega, by omega⟩
  | swapped p mint a min r hreach hop ih =>
    obtain ⟨hinit, hts, -, -, -, houtpos, hdir⟩ := swap_ok_cases hop
    rcases ih with ⟨hts0, hz0, hz1⟩ | ⟨htsp, hr0p, hr1p⟩
    · rcases hdir with ⟨-, hle, -, -⟩ | ⟨-, hle, -, -⟩ <;> omega
    · rcases hdir with ⟨hout, hle, hnew0, hnew1⟩ | ⟨hout, hle, hnew1, hnew0⟩
      · have hlt : r.amount_out < p.reserve1 := by
          rw [hout]; exact swap_out_lt _ _ _ hr0p hr1p
        exact Or.inr ⟨by omega, by omega, by omega⟩
      · have hlt : r.amount_out < p.reserve0 := by
          rw [hout]; exact swap_out_lt _ _ _ hr1p hr0p
        exact Or.inr ⟨by omega, by omega, by omega⟩

/-- C6: in every reachable pair state — starting from configuration,
under any sequence of successful `add_liquidity`, `remove_liquidity` and
`swap` operations — the share supply is zero exactly when both reserves
are zero. -/
theorem reachable_supply_zero_iff_reserves_zero (p : PairAccount) (h : Reachable p) :
    p.total_supply = 0 ↔ (p.reserve0 = 0 ∧ p.reserve1 = 0) := by
  rcases reachable_funded_or_empty h with ⟨h1, h2, h3⟩ | ⟨h1, h2, h3⟩ <;> omega

theorem reachable_supply_zero_iff_reserves_zero_witness :
    cfgPairAfter.total_supply = 0 ↔ (cfgPairAfter.reserve0 = 0 ∧ cfgPairAfter.reserve1 = 0) :=
  reachable_supply_zero_iff_reserves_zero cfgPairAfter
    (Reachable.configured cfgFactory cfgPairBlank cfgInputs cfgFactoryAfter cfgPairAfter
      (by rfl))

/-! ### C7: add-then-remove round trip bound -/

/-- Core floor-division estimate for the round trip: with binding-side
deposit `d0` against reserves `(r0, r1)` and supply `ts`, removing the
minted `d0 * ts / r0` shares from the post-deposit pool returns at most
the non-binding deposit `d0 * r1 / r0`. -/
theorem floor_share_le (r0 r1 ts d0 : Nat) (hr0 : 0 < r0) (hts : 0 < ts) :
    d0 * ts / r0 * (r1 + d0 * r1 / r0) / (ts + d0 * ts / r0) ≤ d0 * r1 / r0 := by
  set L := d0 * ts / r0 with hL
  set q := d0 * r1 / r0 with hq
  have h1 : L * r0 ≤ d0 * ts := by rw [hL]; exact Nat.div_mul_le_self _ _
  have h2 : d0 * r1 < (q + 1) * r0 := by
    have h2' : d0 * r1 < d0 * r1 / r0 * r0 + r0 := Nat.lt_div_mul_add hr0
    rw [hq]
    nlinarith [h2']
  have h3 : L * r1 < (q + 1) * ts := by
    have c1 : L * r1 * r0 < (q + 1) * ts * r0 := by
      calc L * r1 * r0 = L * r0 * r1 := by ring
        _ ≤ d0 * ts * r1 := mul_le_mul_right' h1 r1
        _ = d0 * r1 * ts := by ring
        _ < (q + 1) * r0 * ts := mul_lt_mul_of_pos_right h2 hts
        _ = (q + 1) * ts * r0 := by ring
    exact lt_of_mul_lt_mul_right c1 (Nat.zero_le _)
  have h4 : L * (r1 + q) < (q + 1) * (ts + L) := by nlinarith [h3]
  have h5 : L * (r1 + q) / (ts + L) < q + 1 := by
    rw [Nat.div_lt_iff_lt_mul (Nat.lt_of_lt_of_le hts (Nat.le_add_right _ _))]
    nlinarith [h4]
  omega

/-- C7: for every Configured pair state, a successful `add_liquidity`
immediately followed by a successful `remove_liquidity` of exactly the
shares just minted returns amounts that are each at most the amounts
deposited. -/
theorem add_then_remove_refunds_at_most (pair : PairAccount) (d0 d1 m0 m1 : Nat)
    (r : AddLiquidityResult) (m0' m1' : Nat) (r2 : RemoveLiquidityResult)
    (h1 : add_liquidity pair d0 d1 m0 m1 = .ok r)
    (h2 : remove_liquidity r.pair r.liquidity m0' m1' = .ok r2) :
    r2.amount0 ≤ r.amount0 ∧ r2.amount1 ≤ r.amount1 := by
  obtain ⟨-, hR0, hR1, -, -, -, hcases⟩ := add_liquidity_ok_cases h1
  obtain ⟨-, hTne, hliqle, hb0, hb1, -, -, -, -, -, -, -, -⟩ := remove_liquidity_ok_cases h2
  rcases hcases with ⟨hz0, hz1, ha0, ha1, -, -, -, -, hts⟩ | ⟨hnz, hr0ne, hts, hbranch⟩
  · constructor
    · rw [hb0, hR0, hts, hz0]
      apply Nat.div_le_of_le_mul'
      nlinarith []
    · rw [hb1, hR1, hts, hz1]
      apply Nat.div_le_of_le_mul'
      nlinarith []
  · have hr0p : 0 < pair.reserve0 := Nat.pos_of_ne_zero hr0ne
    have htsp : 0 < pair.total_supply := by
      by_contra hc
      have hts0 : pair.total_supply = 0 := by omega
      have hL0 : r.liquidity = 0 := by
        rcases hbranch with ⟨-, -, hLf⟩ | ⟨-, -, -, hLf⟩ <;> simp [hLf, hts0]
      exact hTne (by rw [hts, hts0, hL0])
    rcases hbranch with ⟨ha0, ha1, hLf⟩ | ⟨hr1ne, ha0, ha1, hLf⟩
    · constructor
      · rw [hb0, hR0, hts, ha0, hLf]
        apply Nat.div_le_of_le_mul'
        have hk : d0 * pair.total_supply / pair.reserve0 * pair.reserve0 ≤
            d0 * pair.total_supply := Nat.div_mul_le_self _ _
        nlinarith [hk]
      · rw [hb1, hR1, hts, ha1, hLf]
        exact floor_share_le pair.reserve0 pair.reserve1 pair.total_supply d0 hr0p htsp
    · have hr1p : 0 < pair.reserve1 := Nat.pos_of_ne_zero hr1ne
      constructor
      · rw [hb0, hR0, hts, ha0, hLf]
        exact floor_share_le pair.reserve1 pair.reserve0 pair.total_supply d1 hr1p htsp
      · rw [hb1, hR1, hts, ha1, hLf]
        apply Nat.div_le_of_le_mul'
        have hk : d1 * pair.total_supply / pair.reserve1 * pair.reserve1 ≤
            d1 * pair.total_supply := Nat.div_mul_le_self _ _
        nlinarith [hk]

theorem add_then_remove_refunds_at_most_witness :
    (9500 : Nat) ≤ 10000 ∧ (38000 : Nat) ≤ 40000 := by
  have hsq : sqrt 400000000 = 20000 := by
    have hlo : 20000 ≤ sqrt 400000000 := le_sqrt_of_sq_le _ _ (by norm_num)
    have hhi : sqrt 400000000 < 20001 := by
      rw [sqrt_eq_nat_sqrt]
      exact Nat.sqrt_lt.mpr (by norm_num)
    omega
  have hsq2 : sqrt (10000 * 40000) = 20000 := by norm_num [hsq]
  have h1 : add_liquidity emptyPair 10000 40000 0 0 =
      .ok ⟨{ emptyPair with reserve0 := 10000, reserve1 := 40000, total_supply := 20000 },
           10000, 40000, 19000⟩ := by
    obtain ⟨-, hsucc⟩ := add_liquidity_first_deposit_spec emptyPair 10000 40000 0 0
      rfl rfl rfl rfl (by norm_num [u64Max]) (by norm_num [u64Max])
    rw [hsucc (by rw [hsq2]; norm_num) (by norm_num) (by norm_num)]
    rw [hsq2]
  have h2 : remove_liquidity
      { emptyPair with reserve0 := 10000, reserve1 := 40000, total_supply := 20000 }
      19000 0 0 =
      .ok ⟨{ emptyPair with reserve0 := 500, reserve1 := 2000, total_supply := 1000 },
           9500, 38000⟩ := by
    simp [remove_liquidity, emptyPair, u64TryFrom, checkedMul128, checkedDiv128,
      checkedSub64, u64Max, u128Max]
  exact add_then_remove_refunds_at_most emptyPair 10000 40000 0 0 _ 0 0 _ h1 h2

end SolanaDex
